import Mathlib

/-!
Shallow embedding of the FAKEHACK reward & ledger engine.

The account store is a list of (id, record) pairs; a Mongo-style
conditional update ("update iff predicate") is modelled by testing the
predicate on the record found by id and rewriting that one entry.  The
ledger is an append-only list.  JS numbers carrying coin amounts are
modelled as `Int` (all code paths handled here use integral amounts).
Each embedded route takes the acting account id plus the request body
fields and returns the HTTP-level outcome together with the new state.
-/

/-- A user document: the economic/progression fields used by the engine
(src/models/User via the routes and services). -/
structure Account where
  username : String
  coins : Int
  level : Int
  role : String
  isBannedFromCoins : Bool
  isBannedFromChat : Bool
  achievements : List String
  awardedAchievements : List String
  achievementPoints : Int
  stats : List (String × Int)
  unlocks : List String
  deriving Repr, DecidableEq

/-- A CoinTransaction document (append-only ledger entry). -/
structure LedgerEntry where
  type : String
  fromUserId : Option Nat
  toUserId : Option Nat
  fromUsername : Option String
  toUsername : Option String
  amount : Int
  description : String
  createdAt : Int
  deriving Repr, DecidableEq

/-- The whole store: accounts by id, the coin-transaction ledger, and the
chat-message collection (only the fields the engine writes). -/
structure St where
  accounts : List (Nat × Account)
  ledger : List LedgerEntry
  messages : List (Nat × Nat × Int)
  deriving Repr, DecidableEq

/-- `User.findById`. -/
def findById (st : St) (id : Nat) : Option Account :=
  (st.accounts.find? fun p => p.1 == id).map Prod.snd

/-- `User.findOne({username})`, returning the matching document and its id. -/
def findByUsername (st : St) (name : String) : Option (Nat × Account) :=
  st.accounts.find? fun p => p.2.username == name

/-- Write a document back by id (`save` / the write half of a conditional
update): replaces the first entry whose key matches. -/
def setAccount : List (Nat × Account) → Nat → Account → List (Nat × Account)
  | [], _, _ => []
  | (i, a) :: rest, id, b => if i = id then (i, b) :: rest else (i, a) :: setAccount rest id b

/-- Store-level account save. -/
def saveAccount (st : St) (id : Nat) (b : Account) : St :=
  { st with accounts := setAccount st.accounts id b }

/-- `CoinTransaction.create`: append-only ledger insert. -/
def appendLedger (st : St) (e : LedgerEntry) : St :=
  { st with ledger := st.ledger ++ [e] }

/-- `ChatMessage.create` (only the fields the engine writes). -/
def appendMessage (st : St) (m : Nat × Nat × Int) : St :=
  { st with messages := st.messages ++ [m] }

/-- `String.prototype.trim` of JS, modelled over the character list. -/
def jsTrim (s : String) : String :=
  ⟨((s.data.dropWhile Char.isWhitespace).reverse.dropWhile Char.isWhitespace).reverse⟩

/-- One entry of the static achievement catalog
(src/services/achievements.js, ACHIEVEMENTS). -/
structure AchievementDef where
  code : String
  title : String
  coinsReward : Int
  deriving Repr, DecidableEq

/-- The static achievement catalog. -/
def ACHIEVEMENTS : List AchievementDef :=
  [⟨"FIRST_LOGIN", "First Login", 10⟩,
   ⟨"LEVEL2_UNLOCKED", "Unlocked Level 2", 50⟩,
   ⟨"LEVEL3_UNLOCKED", "Unlocked Level 3", 75⟩,
   ⟨"FIRST_BUG_REPORT", "First Bug Report", 25⟩]

/-- Catalog lookup `ACHIEVEMENTS[code]`. -/
def achievementDef (code : String) : Option AchievementDef :=
  ACHIEVEMENTS.find? fun d => d.code == code

/-- `awardAchievement(userId, code)` from src/services/achievements.js.
Branch 1: conditional update "has not the code AND not coin-banned",
pushing the achievement and (when the reward is positive) incrementing
coins, followed by an achievement_reward ledger insert when coins were
actually given.  Branch 2: conditional update "has not the code" only,
pushing the achievement without coins.  Branch 3: plain findById. -/
def awardAchievement (userId : Nat) (code : String) (now : Int) (st : St) :
    Option Account × St :=
  match achievementDef code with
  | none => (none, st)
  | some d =>
    let reward := d.coinsReward
    match findById st userId with
    | none => (none, st)
    | some a =>
      if d.code ∉ a.achievements ∧ a.isBannedFromCoins = false then
        let a1 : Account :=
          { a with achievements := a.achievements ++ [d.code],
                   coins := if 0 < reward then a.coins + reward else a.coins }
        let st1 := saveAccount st userId a1
        let st2 :=
          if 0 < reward then
            appendLedger st1
              ⟨"achievement_reward", none, some userId, none, some a1.username,
                reward, "Achievement: " ++ d.title, now⟩
          else st1
        (some a1, st2)
      else if d.code ∉ a.achievements then
        let a1 : Account := { a with achievements := a.achievements ++ [d.code] }
        (some a1, saveAccount st userId a1)
      else
        (some a, st)

/-- HTTP-level outcome of a route: success, or an error status with its
reason string. -/
inductive Resp where
  | ok : Resp
  | err : Nat → String → Resp
  deriving Repr, DecidableEq

/-- `dailyLimitsOK(userId, maxTransfers, maxCoins)` from src/routes/coins.js:
over ledger entries of type transfer authored by the user in the trailing
24 hours, reject when the count reaches maxTransfers, otherwise when the
amount sum reaches maxCoins.  Returns the rejection reason, or none. -/
def dailyLimitsOK (userId : Nat) (maxTransfers maxCoins now : Int) (st : St) :
    Option String :=
  let since := now - 24 * 60 * 60 * 1000
  let tx := st.ledger.filter fun t =>
    t.type == "transfer" && t.fromUserId == some userId && decide (since ≤ t.createdAt)
  if maxTransfers ≤ (tx.length : Int) then some "Daily transfer count limit reached"
  else
    let sum := tx.foldl (fun a t => a + t.amount) 0
    if maxCoins ≤ sum then some "Daily coin sending limit reached"
    else none

/-- POST /coins/transfer from src/routes/coins.js: ban check, input
validation, target lookup, self check, daily limits for non-admin,
balance check; then debit sender, credit receiver unless the receiver is
coin-banned, and record the transfer ledger entry at full amount. -/
def transfer (fromId : Nat) (toUsername : String) (amount now : Int) (st : St) :
    Resp × St :=
  match findById st fromId with
  | none => (.err 401 "Not logged in", st)
  | some u =>
    if u.isBannedFromCoins then (.err 403 "You are banned from using coins", st)
    else if toUsername = "" ∨ amount ≤ 0 then (.err 400 "Invalid request", st)
    else
      match findByUsername st (jsTrim toUsername) with
      | none => (.err 404 "Target user not found", st)
      | some (tid, target) =>
        if target.username = u.username then (.err 400 "Cannot send coins to yourself", st)
        else
          match (if u.role = "admin" then none else dailyLimitsOK fromId 20 2000 now st) with
          | some reason => (.err 429 reason, st)
          | none =>
            if u.coins < amount then (.err 400 "Not enough coins", st)
            else
              let u1 : Account := { u with coins := u.coins - amount }
              let st1 := saveAccount st fromId u1
              let t1 : Account :=
                if target.isBannedFromCoins then target
                else { target with coins := target.coins + amount }
              let st2 := saveAccount st1 tid t1
              (.ok, appendLedger st2
                  ⟨"transfer", some fromId, some tid, some u.username,
                    some target.username, amount, "User transfer", now⟩)

/-- POST /coins/level-up from src/routes/coins.js: target level must
exceed the current level and be at most 10; coin-ban check; cost
(targetLevel − level) × 100 is charged unless the actor is admin; the
level is set, a level_up ledger entry recorded, and the level
achievements granted through awardAchievement. -/
def levelUp (userId : Nat) (targetLevel now : Int) (st : St) : Resp × St :=
  match findById st userId with
  | none => (.err 401 "Not logged in", st)
  | some u =>
    if targetLevel ≤ u.level ∨ 10 < targetLevel then (.err 400 "Invalid target level", st)
    else if u.isBannedFromCoins then (.err 403 "You are banned from using coins", st)
    else
      let cost := (targetLevel - u.level) * 100
      if u.role ≠ "admin" ∧ u.coins < cost then (.err 400 "Not enough coins", st)
      else
        let u1 : Account :=
          { u with coins := if u.role = "admin" then u.coins else u.coins - cost,
                   level := targetLevel }
        let st1 := saveAccount st userId u1
        let st2 := appendLedger st1
            ⟨"level_up", some userId, none, some u.username, none, cost,
              "Level up " ++ toString u.level ++ " -> " ++ toString targetLevel, now⟩
        let st3 := if 2 ≤ targetLevel then (awardAchievement userId "LEVEL2_UNLOCKED" now st2).2 else st2
        let st4 := if 3 ≤ targetLevel then (awardAchievement userId "LEVEL3_UNLOCKED" now st3).2 else st3
        (.ok, st4)

/-- The static feature price table (src/routes/coins.js, FEATURE_PRICES). -/
def FEATURE_PRICES : List (String × Int) :=
  [("chat", 100), ("groupChat", 200), ("createGroup", 300), ("imageUpload", 150)]

/-- Price lookup `FEATURE_PRICES[key]`. -/
def featurePrice (key : String) : Option Int :=
  (FEATURE_PRICES.find? fun p => p.1 == key).map Prod.snd

/-- POST /coins/buy-feature from src/routes/coins.js: reject an unknown
feature, a coin-banned actor, an already unlocked feature, or an
insufficient balance; otherwise deduct the price, set the unlock flag in
the same save, and record a feature_purchase ledger entry. -/
def buyFeature (userId : Nat) (featureKey : String) (now : Int) (st : St) : Resp × St :=
  match findById st userId with
  | none => (.err 401 "Not logged in", st)
  | some u =>
    match featurePrice featureKey with
    | none => (.err 400 "Invalid feature", st)
    | some cost =>
      if u.isBannedFromCoins then (.err 403 "You are banned from using coins", st)
      else if featureKey ∈ u.unlocks then (.err 400 "Feature already unlocked", st)
      else if u.coins < cost then (.err 400 "Not enough coins", st)
      else
        let u1 : Account := { u with coins := u.coins - cost, unlocks := u.unlocks ++ [featureKey] }
        let st1 := saveAccount st userId u1
        (.ok, appendLedger st1
            ⟨"feature_purchase", some userId, none, some u.username, none, cost,
              "Feature purchase: " ++ featureKey, now⟩)

/-- POST /coins/adjust from src/routes/coins.js (behind requireAdmin):
clamp the target balance at max(0, old + delta) and always record an
admin_adjust ledger entry carrying the unsigned magnitude as amount and
the signed delta inside the description. -/
def adminAdjust (adminId : Nat) (username : String) (delta : Int) (reason : String)
    (now : Int) (st : St) : Resp × St :=
  match findById st adminId with
  | none => (.err 401 "Not logged in", st)
  | some admin =>
    if admin.role ≠ "admin" then (.err 403 "Admin only", st)
    else if username = "" then (.err 400 "Invalid request", st)
    else
      match findByUsername st (jsTrim username) with
      | none => (.err 404 "User not found", st)
      | some (tid, target) =>
        let t1 : Account := { target with coins := max 0 (target.coins + delta) }
        let st1 := saveAccount st tid t1
        (.ok, appendLedger st1
            ⟨"admin_adjust", some adminId, some tid, some admin.username,
              some target.username, |delta|,
              "Admin adjust (" ++ (if 0 ≤ delta then "+" else "") ++ toString delta ++ ")"
                ++ (if reason = "" then "" else " — " ++ reason.take 200), now⟩)

/-- One milestone of the feature-progress configuration: a stat threshold,
an achievement-point reward and a unique milestone code. -/
structure Milestone where
  count : Int
  ap : Int
  code : String
  deriving Repr, DecidableEq

/-- FEATURE_MILESTONES: the per-feature per-stat milestone tables loaded
from the static configuration, taken as a parameter of the embedding. -/
abbrev MilestoneConfig := List (String × List (String × List Milestone))

/-- Table lookup `FEATURE_MILESTONES[fKey][sKey] or []`. -/
def milestonesFor (cfg : MilestoneConfig) (fKey sKey : String) : List Milestone :=
  match cfg.find? fun p => p.1 == fKey with
  | none => []
  | some (_, byStat) =>
    match byStat.find? fun p => p.1 == sKey with
    | none => []
    | some (_, ms) => ms

/-- Result shape of awardApOnce. -/
structure ApResult where
  ok : Bool
  awarded : Bool
  deriving Repr, DecidableEq

/-- `awardApOnce(userId, code, apAmount)` from src/services/featureProgress.js:
no-op on an empty trimmed code or non-positive AP; otherwise a conditional
update adding the code to the awarded-milestone set and incrementing the
AP total, conditioned on the code being absent. -/
def awardApOnce (userId : Nat) (code : String) (apAmount : Int) (st : St) :
    ApResult × St :=
  let cleanCode := jsTrim code
  if cleanCode = "" ∨ apAmount ≤ 0 then (⟨false, false⟩, st)
  else
    match findById st userId with
    | none => (⟨true, false⟩, st)
    | some a =>
      if cleanCode ∉ a.awardedAchievements then
        (⟨true, true⟩, saveAccount st userId
          { a with awardedAchievements := a.awardedAchievements ++ [cleanCode],
                   achievementPoints := a.achievementPoints + apAmount })
      else (⟨true, false⟩, st)

/-- Read a stat counter, defaulting to 0 (`user?.stats?.[sKey] || 0`). -/
def statGet (stats : List (String × Int)) (k : String) : Int :=
  match stats.find? fun p => p.1 == k with
  | some p => p.2
  | none => 0

/-- `$inc` on a stat counter: update the entry in place or create it. -/
def statInc : List (String × Int) → String → Int → List (String × Int)
  | [], k, d => [(k, d)]
  | (k1, v) :: rest, k, d =>
    if k1 = k then (k1, v + d) :: rest else (k1, v) :: statInc rest k d

/-- Loop body of recordFeatureAction: skip a milestone whose trimmed code
is empty or not reached, otherwise invoke awardApOnce. -/
def milestoneStep (userId : Nat) (newValue : Int) (s : St) (m : Milestone) : St :=
  if jsTrim m.code = "" then s
  else if m.count ≤ newValue then (awardApOnce userId m.code m.ap s).2
  else s

/-- `recordFeatureAction(userId, featureKey, statKey, delta)` from
src/services/featureProgress.js: no-op on zero delta or empty trimmed
keys; otherwise increment the stat, then for every configured milestone
of (featureKey, statKey) whose threshold is at most the new value,
invoke awardApOnce.  Returns the stat key and its new value. -/
def recordFeatureAction (userId : Nat) (featureKey statKey : String) (delta : Int)
    (cfg : MilestoneConfig) (st : St) : Option (String × Int) × St :=
  if delta = 0 then (none, st)
  else
    let fKey := jsTrim featureKey
    let sKey := jsTrim statKey
    if fKey = "" ∨ sKey = "" then (none, st)
    else
      let st1 :=
        match findById st userId with
        | some a => saveAccount st userId { a with stats := statInc a.stats sKey delta }
        | none => st
      let newValue :=
        match findById st1 userId with
        | some a => statGet a.stats sKey
        | none => 0
      let st2 := (milestonesFor cfg fKey sKey).foldl (milestoneStep userId newValue) st1
      (some (sKey, newValue), st2)

/-- POST /dm/send from the DM route (src/unnamed/part_002): chat and
image-upload unlock gates, chat-ban check, target lookup and checks;
then, when coinsToSend is positive, an inline coin transfer with the
same debit/suppressed-credit/ledger shape as /coins/transfer but with no
daily-limit evaluation; finally the chat message is stored and the chat
stats are recorded. -/
def dmSend (cfg : MilestoneConfig) (userId : Nat) (toUsername : String)
    (hasImage : Bool) (coinsToSend now : Int) (st : St) : Resp × St :=
  match findById st userId with
  | none => (.err 401 "Not logged in", st)
  | some u =>
    if "chat" ∉ u.unlocks then
      (.err 403 "Chat feature is locked. Unlock it in the Feature Shop.", st)
    else if hasImage = true ∧ "imageUpload" ∉ u.unlocks then
      (.err 403 "Image Upload feature is locked. Unlock it in the Feature Shop.", st)
    else if u.isBannedFromChat then (.err 403 "You are banned from chat", st)
    else if toUsername = "" then (.err 400 "Missing toUsername", st)
    else
      match findByUsername st (jsTrim toUsername) with
      | none => (.err 404 "Target user not found", st)
      | some (tid, target) =>
        if target.username = u.username then (.err 400 "Cannot chat with yourself here", st)
        else if "chat" ∉ target.unlocks then
          (.err 403 "The other user has not unlocked chat yet.", st)
        else if hasImage = true ∧ u.level < 2 then
          (.err 403 "Level 2 required to send images", st)
        else if 0 < coinsToSend ∧ u.isBannedFromCoins then
          (.err 403 "You are banned from coins", st)
        else if 0 < coinsToSend ∧ u.coins < coinsToSend then
          (.err 400 "Not enough coins", st)
        else
          let st1 :=
            if 0 < coinsToSend then
              let s1 := saveAccount st userId { u with coins := u.coins - coinsToSend }
              let t1 : Account :=
                if target.isBannedFromCoins then target
                else { target with coins := target.coins + coinsToSend }
              let s2 := saveAccount s1 tid t1
              appendLedger s2
                  ⟨"transfer", some userId, some tid, some u.username,
                    some target.username, coinsToSend, "DM transfer", now⟩
            else st
          let st2 := appendMessage st1
              (userId, tid, if 0 < coinsToSend then coinsToSend else 0)
          let st3 := (recordFeatureAction userId "chat" "dmMessagesSent" 1 cfg st2).2
          let st4 :=
            if hasImage then (recordFeatureAction userId "imageUpload" "imagesSent" 1 cfg st3).2
            else st3
          (.ok, st4)

/-- One operation of the engine, for stating whole-store invariants over
operation sequences. -/
inductive Op where
  | transferOp (fromId : Nat) (toUsername : String) (amount now : Int)
  | buyFeatureOp (userId : Nat) (featureKey : String) (now : Int)
  | levelUpOp (userId : Nat) (targetLevel now : Int)
  | adminAdjustOp (adminId : Nat) (username : String) (delta : Int) (reason : String) (now : Int)
  | grantOp (userId : Nat) (code : String) (now : Int)

/-- State effect of one operation. -/
def stepOp (op : Op) (st : St) : St :=
  match op with
  | .transferOp f t a n => (transfer f t a n st).2
  | .buyFeatureOp u k n => (buyFeature u k n st).2
  | .levelUpOp u l n => (levelUp u l n st).2
  | .adminAdjustOp a u d r n => (adminAdjust a u d r n st).2
  | .grantOp u c n => (awardAchievement u c n st).2

/-- Sequential execution of a list of operations. -/
def runOps : List Op → St → St
  | [], st => st
  | op :: rest, st => runOps rest (stepOp op st)

/-- Every stored account has a non-negative balance. -/
abbrev NonNeg (st : St) : Prop := ∀ p ∈ st.accounts, 0 ≤ p.2.coins

/-- Iterated calls of awardAchievement for one (account, code) pair. -/
def grantIter (userId : Nat) (code : String) (now : Int) : Nat → St → St
  | 0, st => st
  | n + 1, st => grantIter userId code now n (awardAchievement userId code now st).2

/-- A small concrete store used by the witnesses: one ordinary account. -/
def stW : St :=
  ⟨[(0, ⟨"alice", 5, 1, "user", false, false, [], [], 0, [], []⟩)], [], []⟩

/-- A concrete store with a coin-banned account. -/
def stW6 : St :=
  ⟨[(0, ⟨"bella", 9, 1, "user", true, false, [], [], 0, [], []⟩)], [], []⟩

def cfgW5 : MilestoneConfig :=
  [("chat", [("dmMessagesSent", [⟨1, 5, "CHAT_1"⟩, ⟨3, 10, "CHAT_3"⟩])])]

/-- Concrete store for the C5 witness. -/
def stW5 : St :=
  ⟨[(0, ⟨"finn", 0, 1, "user", false, false, [], [], 0, [], ["chat"]⟩)], [], []⟩

/-- Sender account of the C3 counterexample store. -/
def amyC3 : Account := ⟨"amy", 10000, 1, "user", false, false, [], [], 0, [], ["chat"]⟩

/-- Recipient account of the C3 counterexample store. -/
def bobC3 : Account := ⟨"bob", 3, 1, "user", false, false, [], [], 0, [], ["chat"]⟩

/-- A transfer ledger entry authored by account 0 at time 0. -/
def entC3 : LedgerEntry := ⟨"transfer", some 0, some 1, some "amy", some "bob", 100, "User transfer", 0⟩

def stC3 : St := ⟨[(0, amyC3), (1, bobC3)], List.replicate 20 entC3, []⟩

/-- Concrete sender for the C4 witness. -/
def hankW4 : Account := ⟨"hank", 100, 1, "user", false, false, [], [], 0, [], []⟩

/-- Concrete coin-banned recipient for the C4 witness. -/
def ivyW4 : Account := ⟨"ivy", 7, 1, "user", true, false, [], [], 0, [], []⟩

/-- Concrete store for the C4 witness. -/
def stW4 : St := ⟨[(0, hankW4), (1, ivyW4)], [], []⟩

/-- Concrete account for the C7 witness. -/
def stW7 : St :=
  ⟨[(0, ⟨"gina", 500, 1, "user", false, false, [], [], 0, [], []⟩),
    (1, ⟨"hera", 10, 1, "admin", false, false, [], [], 0, [], []⟩)], [], []⟩

/-- Concrete admin account for witnesses. -/
def rootW8 : Account := ⟨"root", 0, 1, "admin", false, false, [], [], 0, [], []⟩

/-- Concrete target account for witnesses. -/
def aliceW8 : Account := ⟨"alice", 5, 1, "user", false, false, [], [], 0, [], []⟩

/-- Concrete store with an admin and a target account. -/
def stW8 : St := ⟨[(0, aliceW8), (1, rootW8)], [], []⟩

/-- Concrete poor account for the C9 witness. -/
def carolW9 : Account := ⟨"carol", 50, 1, "user", false, false, [], [], 0, [], []⟩

/-- Concrete rich account for the C9 witness. -/
def daveW9 : Account := ⟨"dave", 500, 1, "user", false, false, [], [], 0, [], []⟩

/-- Concrete store for the C9 witness. -/
def stW9 : St := ⟨[(0, carolW9), (1, daveW9)], [], []⟩

section StoreLemmas

theorem setAccount_find_self (id : Nat) (b : Account) :
    ∀ l : List (Nat × Account), (l.find? fun p => p.1 == id).isSome →
      ((setAccount l id b).find? fun p => p.1 == id) = some (id, b) := by
  intro l
  induction l with
  | nil => intro h; simp [List.find?] at h
  | cons hd tl ih =>
    intro h
    obtain ⟨i, a⟩ := hd
    by_cases hi : i = id
    · subst hi
      simp [setAccount, List.find?]
    · have hb : (i == id) = false := by simp [hi]
      simp only [setAccount, if_neg hi]
      simp only [List.find?_cons, hb] at h ⊢
      exact ih h

theorem setAccount_find_ne (id i : Nat) (b : Account) (hne : i ≠ id) :
    ∀ l : List (Nat × Account),
      ((setAccount l id b).find? fun p => p.1 == i) = l.find? fun p => p.1 == i := by
  intro l
  induction l with
  | nil => simp [setAccount]
  | cons hd tl ih =>
    obtain ⟨k, a⟩ := hd
    by_cases hk : k = id
    · subst hk
      have hki : (k == i) = false := by
        simp only [beq_eq_false_iff_ne]
        exact fun h => hne h.symm
      simp only [setAccount, if_true, eq_self_iff_true]
      simp only [List.find?_cons, hki]
    · simp only [setAccount, if_neg hk]
      by_cases hki : k = i
      · subst hki
        simp [List.find?_cons]
      · have hb2 : (k == i) = false := by simp [hki]
        simp only [List.find?_cons, hb2]
        exact ih

theorem findById_saveAccount_self (st : St) (id : Nat) (a b : Account)
    (h : findById st id = some a) :
    findById (saveAccount st id b) id = some b := by
  unfold findById at h ⊢
  unfold saveAccount
  have hs : (st.accounts.find? fun p => p.1 == id).isSome := by
    cases hf : st.accounts.find? fun p => p.1 == id with
    | none => rw [hf] at h; simp at h
    | some p => simp [hf]
  simp [setAccount_find_self id b st.accounts hs]

theorem findById_saveAccount_ne (st : St) (id i : Nat) (b : Account) (hne : i ≠ id) :
    findById (saveAccount st id b) i = findById st i := by
  unfold findById saveAccount
  simp [setAccount_find_ne id i b hne]

theorem mem_setAccount (id : Nat) (b : Account) :
    ∀ l : List (Nat × Account), ∀ p ∈ setAccount l id b, p.2 = b ∨ p ∈ l := by
  intro l
  induction l with
  | nil => intro p hp; simp [setAccount] at hp
  | cons hd tl ih =>
    intro p hp
    obtain ⟨k, a⟩ := hd
    by_cases hk : k = id
    · subst hk
      simp only [setAccount, if_true, eq_self_iff_true, List.mem_cons] at hp
      rcases hp with h1 | h1
      · subst h1; exact Or.inl rfl
      · exact Or.inr (List.mem_cons_of_mem _ h1)
    · simp only [setAccount, if_neg hk, List.mem_cons] at hp
      rcases hp with h1 | h1
      · exact Or.inr (by simp [h1])
      · rcases ih p h1 with h2 | h2
        · exact Or.inl h2
        · exact Or.inr (List.mem_cons_of_mem _ h2)

theorem nonNeg_saveAccount {st : St} {b : Account} (id : Nat)
    (h : NonNeg st) (hb : 0 ≤ b.coins) : NonNeg (saveAccount st id b) := by
  intro p hp
  rcases mem_setAccount id b st.accounts p hp with h2 | h2
  · rw [h2]; exact hb
  · exact h p h2

theorem nonNeg_findById {st : St} {id : Nat} {a : Account}
    (h : NonNeg st) (hf : findById st id = some a) : 0 ≤ a.coins := by
  unfold findById at hf
  cases hq : st.accounts.find? fun p => p.1 == id with
  | none => rw [hq] at hf; simp at hf
  | some p =>
    rw [hq] at hf
    simp at hf
    have hm : p ∈ st.accounts := List.mem_of_find?_eq_some hq
    have h2 := h p hm
    rw [hf] at h2
    exact h2

theorem nonNeg_findByUsername {st : St} {n : String} {i : Nat} {a : Account}
    (h : NonNeg st) (hf : findByUsername st n = some (i, a)) : 0 ≤ a.coins := by
  unfold findByUsername at hf
  have hm : (i, a) ∈ st.accounts := List.mem_of_find?_eq_some hf
  exact h (i, a) hm

@[simp] theorem findById_appendLedger (st : St) (e : LedgerEntry) (id : Nat) :
    findById (appendLedger st e) id = findById st id := rfl

@[simp] theorem findById_appendMessage (st : St) (m : Nat × Nat × Int) (id : Nat) :
    findById (appendMessage st m) id = findById st id := rfl

@[simp] theorem findByUsername_appendLedger (st : St) (e : LedgerEntry) (n : String) :
    findByUsername (appendLedger st e) n = findByUsername st n := rfl

@[simp] theorem ledger_appendLedger (st : St) (e : LedgerEntry) :
    (appendLedger st e).ledger = st.ledger ++ [e] := rfl

@[simp] theorem ledger_saveAccount (st : St) (id : Nat) (b : Account) :
    (saveAccount st id b).ledger = st.ledger := rfl

@[simp] theorem ledger_appendMessage (st : St) (m : Nat × Nat × Int) :
    (appendMessage st m).ledger = st.ledger := rfl

theorem nonNeg_appendLedger {st : St} (e : LedgerEntry) (h : NonNeg st) :
    NonNeg (appendLedger st e) := h

theorem nonNeg_appendMessage {st : St} (m : Nat × Nat × Int) (h : NonNeg st) :
    NonNeg (appendMessage st m) := h

end StoreLemmas

section AwardLemmas

theorem award_unknown {code : String} (id : Nat) (now : Int) (st : St)
    (h : achievementDef code = none) :
    awardAchievement id code now st = (none, st) := by
  simp [awardAchievement, h]

theorem award_noAccount {code : String} {d : AchievementDef} (id : Nat) (now : Int) (st : St)
    (hd : achievementDef code = some d) (h : findById st id = none) :
    awardAchievement id code now st = (none, st) := by
  simp [awardAchievement, hd, h]

theorem award_already {code : String} {d : AchievementDef} {a : Account} (id : Nat) (now : Int)
    (st : St) (hd : achievementDef code = some d) (ha : findById st id = some a)
    (h : d.code ∈ a.achievements) :
    awardAchievement id code now st = (some a, st) := by
  simp [awardAchievement, hd, ha, h]

theorem award_fresh_banned {code : String} {d : AchievementDef} {a : Account} (id : Nat)
    (now : Int) (st : St) (hd : achievementDef code = some d) (ha : findById st id = some a)
    (hn : d.code ∉ a.achievements) (hb : a.isBannedFromCoins = true) :
    awardAchievement id code now st =
      (some { a with achievements := a.achievements ++ [d.code] },
       saveAccount st id { a with achievements := a.achievements ++ [d.code] }) := by
  simp [awardAchievement, hd, ha, hn, hb]

theorem award_fresh_unbanned {code : String} {d : AchievementDef} {a : Account} (id : Nat)
    (now : Int) (st : St) (hd : achievementDef code = some d) (ha : findById st id = some a)
    (hn : d.code ∉ a.achievements) (hb : a.isBannedFromCoins = false)
    (hr : 0 < d.coinsReward) :
    awardAchievement id code now st =
      (some { a with achievements := a.achievements ++ [d.code], coins := a.coins + d.coinsReward },
       appendLedger
         (saveAccount st id
           { a with achievements := a.achievements ++ [d.code], coins := a.coins + d.coinsReward })
         ⟨"achievement_reward", none, some id, none, some a.username,
           d.coinsReward, "Achievement: " ++ d.title, now⟩) := by
  simp [awardAchievement, hd, ha, hn, hb, hr]

theorem award_fresh_unbanned_nocoin {code : String} {d : AchievementDef} {a : Account}
    (id : Nat) (now : Int) (st : St) (hd : achievementDef code = some d)
    (ha : findById st id = some a) (hn : d.code ∉ a.achievements)
    (hb : a.isBannedFromCoins = false) (hr : ¬ 0 < d.coinsReward) :
    awardAchievement id code now st =
      (some { a with achievements := a.achievements ++ [d.code] },
       saveAccount st id { a with achievements := a.achievements ++ [d.code] }) := by
  simp [awardAchievement, hd, ha, hn, hb, hr]

theorem grantIter_stable {id : Nat} {code : String} {d : AchievementDef} {b : Account}
    (now : Int) (hd : achievementDef code = some d) (s : St)
    (hb : findById s id = some b) (hmem : d.code ∈ b.achievements) :
    ∀ n, grantIter id code now n s = s := by
  intro n
  induction n with
  | zero => rfl
  | succ k ih =>
    show grantIter id code now k (awardAchievement id code now s).2 = s
    simp only [award_already id now s hd hb hmem]
    exact ih

end AwardLemmas

/-- C10: awardAchievement invoked with a reward code outside the static
catalog returns null with the store untouched, and null is likewise
returned for a nonexistent account. -/
theorem c10_unknown_code_returns_null (st : St) (id : Nat) (code : String) (now : Int) :
    (achievementDef code = none → awardAchievement id code now st = (none, st)) ∧
    (findById st id = none → awardAchievement id code now st = (none, st)) := by
  constructor
  · intro h
    exact award_unknown id now st h
  · intro h
    cases hd : achievementDef code with
    | none => exact award_unknown id now st hd
    | some d => exact award_noAccount id now st hd h

/-- Witness for C10 at a concrete store: an unknown code and a missing
account id both return null and leave the store unchanged. -/
theorem c10_unknown_code_returns_null_witness :
    awardAchievement 0 "NOT_A_CODE" 0 stW = (none, stW) ∧
    awardAchievement 7 "FIRST_LOGIN" 0 stW = (none, stW) :=
  ⟨(c10_unknown_code_returns_null stW 0 "NOT_A_CODE" 0).1 (by decide),
   (c10_unknown_code_returns_null stW 7 "FIRST_LOGIN" 0).2 (by decide)⟩

section ApLemmas

theorem awardAp_invalid (id : Nat) (code : String) (ap : Int) (st : St)
    (h : jsTrim code = "" ∨ ap ≤ 0) :
    awardApOnce id code ap st = (⟨false, false⟩, st) := by
  simp only [awardApOnce, if_pos h]

theorem awardAp_noop {st : St} {id : Nat} {b : Account} (code : String) (ap : Int)
    (hb : findById st id = some b) (hmem : jsTrim code ∈ b.awardedAchievements) :
    (awardApOnce id code ap st).2 = st := by
  by_cases h : jsTrim code = "" ∨ ap ≤ 0
  · rw [awardAp_invalid id code ap st h]
  · simp only [awardApOnce, if_neg h, hb]
    rw [if_neg (not_not_intro hmem)]

theorem awardAp_mono {st : St} {id : Nat} {b : Account} (code : String) (ap : Int)
    (hb : findById st id = some b) :
    ∃ c, findById (awardApOnce id code ap st).2 id = some c ∧
      b.awardedAchievements ⊆ c.awardedAchievements ∧ c.stats = b.stats := by
  by_cases h : jsTrim code = "" ∨ ap ≤ 0
  · rw [awardAp_invalid id code ap st h]
    exact ⟨b, hb, List.Subset.refl _, rfl⟩
  · simp only [awardApOnce, if_neg h, hb]
    by_cases hmem : jsTrim code ∈ b.awardedAchievements
    · rw [if_neg (not_not_intro hmem)]
      exact ⟨b, hb, List.Subset.refl _, rfl⟩
    · rw [if_pos hmem]
      refine ⟨_, findById_saveAccount_self st id b _ hb, ?_, rfl⟩
      exact List.subset_append_left _ _

theorem awardAp_mem {st : St} {id : Nat} {b : Account} (code : String) (ap : Int)
    (hb : findById st id = some b) (hcode : jsTrim code ≠ "") (hap : 0 < ap) :
    ∃ c, findById (awardApOnce id code ap st).2 id = some c ∧
      jsTrim code ∈ c.awardedAchievements ∧ c.stats = b.stats := by
  have h : ¬ (jsTrim code = "" ∨ ap ≤ 0) := by
    rintro (h1 | h1)
    · exact hcode h1
    · omega
  simp only [awardApOnce, if_neg h, hb]
  by_cases hmem : jsTrim code ∈ b.awardedAchievements
  · rw [if_neg (not_not_intro hmem)]
    exact ⟨b, hb, hmem, rfl⟩
  · rw [if_pos hmem]
    refine ⟨_, findById_saveAccount_self st id b _ hb, ?_, rfl⟩
    simp

theorem milestoneStep_mono {s : St} {id : Nat} {b : Account} (v : Int) (m : Milestone)
    (hb : findById s id = some b) :
    ∃ c, findById (milestoneStep id v s m) id = some c ∧
      b.awardedAchievements ⊆ c.awardedAchievements ∧ c.stats = b.stats := by
  unfold milestoneStep
  by_cases h1 : jsTrim m.code = ""
  · rw [if_pos h1]
    exact ⟨b, hb, List.Subset.refl _, rfl⟩
  · rw [if_neg h1]
    by_cases h2 : m.count ≤ v
    · rw [if_pos h2]
      exact awardAp_mono m.code m.ap hb
    · rw [if_neg h2]
      exact ⟨b, hb, List.Subset.refl _, rfl⟩

theorem foldl_milestones_mono (id : Nat) (v : Int) :
    ∀ (ms : List Milestone) (s : St) (b : Account), findById s id = some b →
      ∃ c, findById (ms.foldl (milestoneStep id v) s) id = some c ∧
        b.awardedAchievements ⊆ c.awardedAchievements ∧ c.stats = b.stats := by
  intro ms
  induction ms with
  | nil =>
    intro s b hb
    exact ⟨b, hb, List.Subset.refl _, rfl⟩
  | cons m rest ih =>
    intro s b hb
    obtain ⟨c1, hc1, hs1, hst1⟩ := milestoneStep_mono v m hb
    obtain ⟨c2, hc2, hs2, hst2⟩ := ih _ c1 hc1
    exact ⟨c2, by simpa using hc2, hs1.trans hs2, hst2.trans hst1⟩

theorem foldl_milestones_award (id : Nat) (v : Int) :
    ∀ (ms : List Milestone) (s : St) (b : Account), findById s id = some b →
      ∀ m ∈ ms, jsTrim m.code ≠ "" → 0 < m.ap → m.count ≤ v →
        ∃ c, findById (ms.foldl (milestoneStep id v) s) id = some c ∧
          jsTrim m.code ∈ c.awardedAchievements := by
  intro ms
  induction ms with
  | nil =>
    intro s b hb m hm
    simp at hm
  | cons m0 rest ih =>
    intro s b hb m hm hcode hap hcount
    rcases List.mem_cons.mp hm with heq | hmem
    · subst heq
      have hstep : ∃ c1, findById (milestoneStep id v s m) id = some c1 ∧
          jsTrim m.code ∈ c1.awardedAchievements := by
        unfold milestoneStep
        rw [if_neg hcode, if_pos hcount]
        obtain ⟨c, hc, hmm, _⟩ := awardAp_mem m.code m.ap hb hcode hap
        exact ⟨c, hc, hmm⟩
      obtain ⟨c1, hc1, hm1⟩ := hstep
      obtain ⟨c2, hc2, hsub, _⟩ := foldl_milestones_mono id v rest _ c1 hc1
      exact ⟨c2, by simpa using hc2, hsub hm1⟩
    · obtain ⟨c1, hc1, _, _⟩ := milestoneStep_mono v m0 hb
      obtain ⟨c2, hc2, hmm⟩ := ih _ c1 hc1 m hmem hcode hap hcount
      exact ⟨c2, by simpa using hc2, hmm⟩

theorem foldl_milestones_noop (id : Nat) (v : Int) :
    ∀ (ms : List Milestone) (s : St) (b : Account), findById s id = some b →
      (∀ m ∈ ms, m.count ≤ v → jsTrim m.code ≠ "" →
        jsTrim m.code ∈ b.awardedAchievements) →
      ms.foldl (milestoneStep id v) s = s := by
  intro ms
  induction ms with
  | nil =>
    intro s b hb _
    rfl
  | cons m0 rest ih =>
    intro s b hb hall
    have hstep : milestoneStep id v s m0 = s := by
      unfold milestoneStep
      by_cases h1 : jsTrim m0.code = ""
      · rw [if_pos h1]
      · rw [if_neg h1]
        by_cases h2 : m0.count ≤ v
        · rw [if_pos h2]
          exact awardAp_noop m0.code m0.ap hb (hall m0 (List.mem_cons_self _ _) h2 h1)
        · rw [if_neg h2]
    show rest.foldl (milestoneStep id v) (milestoneStep id v s m0) = s
    rw [hstep]
    exact ih s b hb fun m hm => hall m (List.mem_cons_of_mem _ hm)

theorem statGet_statInc (k : String) (d : Int) :
    ∀ l : List (String × Int), statGet (statInc l k d) k = statGet l k + d := by
  intro l
  induction l with
  | nil => simp [statInc, statGet, List.find?]
  | cons hd tl ih =>
    obtain ⟨k1, v⟩ := hd
    by_cases hk : k1 = k
    · subst hk
      simp [statInc, statGet, List.find?_cons]
    · have hb : (k1 == k) = false := by simp [hk]
      have hstep : statInc ((k1, v) :: tl) k d = (k1, v) :: statInc tl k d := by
        simp [statInc, hk]
      rw [hstep]
      have hg1 : statGet ((k1, v) :: statInc tl k d) k = statGet (statInc tl k d) k := by
        simp [statGet, List.find?_cons, hb]
      have hg2 : statGet ((k1, v) :: tl) k = statGet tl k := by
        simp [statGet, List.find?_cons, hb]
      rw [hg1, hg2]
      exact ih

end ApLemmas

/-- C5: recordFeatureAction with nonzero delta and non-empty trimmed keys
increments the stat by delta; every configured milestone for the pair
whose threshold is at most the new value ends up in the awarded set (so
two thresholds jumped at once are both awarded in one call), and when all
reached milestones were already awarded the call changes only the stat,
so re-crossing a threshold never pays its AP again. -/
theorem c5_milestones (cfg : MilestoneConfig) (st : St) (id : Nat) (a : Account)
    (fKey sKey : String) (d : Int)
    (hfind : findById st id = some a)
    (hd : d ≠ 0)
    (hf : jsTrim fKey ≠ "") (hs : jsTrim sKey ≠ "") :
    (recordFeatureAction id fKey sKey d cfg st).1 =
      some (jsTrim sKey, statGet a.stats (jsTrim sKey) + d) ∧
    (∀ b, findById (recordFeatureAction id fKey sKey d cfg st).2 id = some b →
       statGet b.stats (jsTrim sKey) = statGet a.stats (jsTrim sKey) + d) ∧
    (∀ m ∈ milestonesFor cfg (jsTrim fKey) (jsTrim sKey),
       jsTrim m.code ≠ "" → 0 < m.ap → m.count ≤ statGet a.stats (jsTrim sKey) + d →
       ∃ b, findById (recordFeatureAction id fKey sKey d cfg st).2 id = some b ∧
         jsTrim m.code ∈ b.awardedAchievements) ∧
    ((∀ m ∈ milestonesFor cfg (jsTrim fKey) (jsTrim sKey),
        m.count ≤ statGet a.stats (jsTrim sKey) + d → jsTrim m.code ≠ "" →
        jsTrim m.code ∈ a.awardedAchievements) →
       (recordFeatureAction id fKey sKey d cfg st).2 =
         saveAccount st id { a with stats := statInc a.stats (jsTrim sKey) d }) := by
  have hcond : ¬ (jsTrim fKey = "" ∨ jsTrim sKey = "") := by
    rintro (h | h)
    · exact hf h
    · exact hs h
  have hfd1 : findById (saveAccount st id { a with stats := statInc a.stats (jsTrim sKey) d }) id
      = some { a with stats := statInc a.stats (jsTrim sKey) d } :=
    findById_saveAccount_self st id a _ hfind
  have hred : recordFeatureAction id fKey sKey d cfg st =
      (some (jsTrim sKey, statGet a.stats (jsTrim sKey) + d),
       (milestonesFor cfg (jsTrim fKey) (jsTrim sKey)).foldl
         (milestoneStep id (statGet a.stats (jsTrim sKey) + d))
         (saveAccount st id { a with stats := statInc a.stats (jsTrim sKey) d })) := by
    simp only [recordFeatureAction, if_neg hd, if_neg hcond, hfind, hfd1, statGet_statInc]
  refine ⟨by rw [hred], ?_, ?_, ?_⟩
  · intro b hb
    rw [hred] at hb
    simp only at hb
    obtain ⟨c, hc, _, hcs⟩ := foldl_milestones_mono id (statGet a.stats (jsTrim sKey) + d)
      (milestonesFor cfg (jsTrim fKey) (jsTrim sKey)) _ _ hfd1
    rw [hc] at hb
    cases hb
    rw [hcs]
    exact statGet_statInc (jsTrim sKey) d a.stats
  · intro m hm hcode hap hcount
    obtain ⟨c, hc, hmm⟩ := foldl_milestones_award id (statGet a.stats (jsTrim sKey) + d)
      (milestonesFor cfg (jsTrim fKey) (jsTrim sKey)) _ _ hfd1 m hm hcode hap hcount
    refine ⟨c, ?_, hmm⟩
    rw [hred]
    exact hc
  · intro hall
    rw [hred]
    simp only
    exact foldl_milestones_noop id (statGet a.stats (jsTrim sKey) + d)
      (milestonesFor cfg (jsTrim fKey) (jsTrim sKey)) _ _ hfd1 hall

/-- Witness for C5: one increment by 3 jumps both thresholds, and both
milestone codes land in the awarded set of the same final account. -/
theorem c5_milestones_witness :
    (recordFeatureAction 0 "chat" "dmMessagesSent" 3 cfgW5 stW5).1 =
      some ("dmMessagesSent", 0 + 3) ∧
    (∃ b, findById (recordFeatureAction 0 "chat" "dmMessagesSent" 3 cfgW5 stW5).2 0 = some b ∧
       "CHAT_1" ∈ b.awardedAchievements) ∧
    (∃ b, findById (recordFeatureAction 0 "chat" "dmMessagesSent" 3 cfgW5 stW5).2 0 = some b ∧
       "CHAT_3" ∈ b.awardedAchievements) := by
  have h := c5_milestones cfgW5 stW5 0
    ⟨"finn", 0, 1, "user", false, false, [], [], 0, [], ["chat"]⟩
    "chat" "dmMessagesSent" 3 (by decide) (by decide) (by decide) (by decide)
  refine ⟨h.1, ?_, ?_⟩
  · exact h.2.2.1 ⟨1, 5, "CHAT_1"⟩ (by decide) (by decide) (by decide) (by decide)
  · exact h.2.2.1 ⟨3, 10, "CHAT_3"⟩ (by decide) (by decide) (by decide) (by decide)

/-- Counterexample to C3 as stated: with the 24-hour window already at
both limits (20 prior transfers summing 2000), the DM send route still
executes a non-admin coin transfer — the sender is debited and a 21st
transfer entry is appended — because that route never consults the rate
window. -/
theorem c3_counterexample_dm_send_skips_window :
    dailyLimitsOK 0 20 2000 1000 stC3 = some "Daily transfer count limit reached" ∧
    (dmSend [] 0 "bob" false 5 1000 stC3).1 = Resp.ok ∧
    Option.map Account.coins (findById (dmSend [] 0 "bob" false 5 1000 stC3).2 0) = some 9995 ∧
    ((dmSend [] 0 "bob" false 5 1000 stC3).2.ledger.filter
      fun t => t.type == "transfer" && t.fromUserId == some 0).length = 21 := by
  decide

/-- C3 amended: only the /coins/transfer route gates transfers on the
24-hour rate window — there a non-admin whose window check fails is
answered 429 with the quota reason and nothing mutates, a non-admin
transfer that does mutate state implies the window check passed, and an
admin is never answered 429; the DM send coin path performs the transfer
without this check. -/
theorem c3_rate_window_transfer_route (st : St) (fromId : Nat) (u : Account)
    (toUsername : String) (amount now : Int) (tid : Nat) (target : Account)
    (hu : findById st fromId = some u)
    (hub : u.isBannedFromCoins = false)
    (hname : toUsername ≠ "")
    (hamt : 0 < amount)
    (htgt : findByUsername st (jsTrim toUsername) = some (tid, target))
    (hself : target.username ≠ u.username) :
    (∀ r, u.role ≠ "admin" → dailyLimitsOK fromId 20 2000 now st = some r →
       transfer fromId toUsername amount now st = (Resp.err 429 r, st)) ∧
    (u.role = "admin" → ∀ r, (transfer fromId toUsername amount now st).1 ≠ Resp.err 429 r) ∧
    (u.role ≠ "admin" → (transfer fromId toUsername amount now st).2 ≠ st →
       dailyLimitsOK fromId 20 2000 now st = none) := by
  have hinv : ¬ (toUsername = "" ∨ amount ≤ 0) := by
    rintro (h | h)
    · exact hname h
    · omega
  have hfirst : ∀ r, u.role ≠ "admin" → dailyLimitsOK fromId 20 2000 now st = some r →
      transfer fromId toUsername amount now st = (Resp.err 429 r, st) := by
    intro r hrole hlim
    simp [transfer, hu, hub, hinv, htgt, hself, hrole, hlim]
  refine ⟨hfirst, ?_, ?_⟩
  · intro hrole r
    by_cases hlt : u.coins < amount
    · simp [transfer, hu, hub, hinv, htgt, hself, hrole, hlt]
    · simp [transfer, hu, hub, hinv, htgt, hself, hrole, hlt]
  · intro hrole hne
    cases hq : dailyLimitsOK fromId 20 2000 now st with
    | none => rfl
    | some r =>
      exact absurd (congrArg Prod.snd (hfirst r hrole hq)) hne

/-- Witness for the amended C3: in the loaded window store, a 21st
transfer attempt by the non-admin sender is answered 429 with the
quota-exceeded reason and the store is unchanged. -/
theorem c3_rate_window_transfer_route_witness :
    transfer 0 "bob" 5 1000 stC3 =
      (Resp.err 429 "Daily transfer count limit reached", stC3) :=
  (c3_rate_window_transfer_route stC3 0 amyC3 "bob" 5 1000 1 bobC3 (by decide) (by decide)
      (by decide) (by decide) (by decide) (by decide)).1
    "Daily transfer count limit reached" (by decide) (by decide)

/-- C4: a transfer from an unbanned sender with sufficient balance to a
coin-banned recipient debits the sender by exactly the amount, leaves the
recipient record unchanged, and still records a transfer ledger entry at
the full amount. -/
theorem c4_banned_recipient (st : St) (fromId tid : Nat) (u target : Account)
    (toUsername : String) (amount now : Int)
    (hu : findById st fromId = some u)
    (hub : u.isBannedFromCoins = false)
    (hname : toUsername ≠ "")
    (hamt : 0 < amount)
    (htgt : findByUsername st (jsTrim toUsername) = some (tid, target))
    (hself : target.username ≠ u.username)
    (hlim : u.role = "admin" ∨ dailyLimitsOK fromId 20 2000 now st = none)
    (hbal : amount ≤ u.coins)
    (htb : target.isBannedFromCoins = true)
    (hneq : tid ≠ fromId)
    (hid : findById st tid = some target) :
    (transfer fromId toUsername amount now st).1 = Resp.ok ∧
    findById (transfer fromId toUsername amount now st).2 fromId =
      some { u with coins := u.coins - amount } ∧
    findById (transfer fromId toUsername amount now st).2 tid = some target ∧
    (transfer fromId toUsername amount now st).2.ledger = st.ledger ++
      [⟨"transfer", some fromId, some tid, some u.username, some target.username,
        amount, "User transfer", now⟩] := by
  have hiflim : (if u.role = "admin" then none else dailyLimitsOK fromId 20 2000 now st) =
      (none : Option String) := by
    rcases hlim with h | h
    · rw [if_pos h]
    · by_cases hr : u.role = "admin"
      · rw [if_pos hr]
      · rw [if_neg hr]
        exact h
  have hinv : ¬ (toUsername = "" ∨ amount ≤ 0) := by
    rintro (h | h)
    · exact hname h
    · omega
  have hnlt : ¬ u.coins < amount := by omega
  have hred : transfer fromId toUsername amount now st =
      (Resp.ok, appendLedger
        (saveAccount (saveAccount st fromId { u with coins := u.coins - amount }) tid target)
        ⟨"transfer", some fromId, some tid, some u.username, some target.username,
          amount, "User transfer", now⟩) := by
    simp [transfer, hu, hub, hinv, htgt, hself, hiflim, hnlt, htb]
  rw [hred]
  refine ⟨rfl, ?_, ?_, by simp⟩
  · rw [findById_appendLedger, findById_saveAccount_ne _ tid fromId _ (Ne.symm hneq)]
    exact findById_saveAccount_self st fromId u _ hu
  · rw [findById_appendLedger]
    have h1 : findById (saveAccount st fromId { u with coins := u.coins - amount }) tid =
        findById st tid := findById_saveAccount_ne st fromId tid _ hneq
    exact findById_saveAccount_self _ tid target target (h1 ▸ hid)

/-- Witness for C4: sending 30 coins to the banned account debits the
sender to 70, leaves the recipient at 7, and logs the full 30. -/
theorem c4_banned_recipient_witness :
    (transfer 0 "ivy" 30 0 stW4).1 = Resp.ok ∧
    findById (transfer 0 "ivy" 30 0 stW4).2 0 = some { hankW4 with coins := hankW4.coins - 30 } ∧
    findById (transfer 0 "ivy" 30 0 stW4).2 1 = some ivyW4 ∧
    (transfer 0 "ivy" 30 0 stW4).2.ledger = stW4.ledger ++
      [⟨"transfer", some 0, some 1, some "hank", some "ivy", 30, "User transfer", 0⟩] :=
  c4_banned_recipient stW4 0 1 hankW4 ivyW4 "ivy" 30 0 (by decide) (by decide) (by decide)
    (by decide) (by decide) (by decide) (Or.inr (by decide)) (by decide) (by decide)
    (by decide) (by decide)

/-- Granting LEVEL2_UNLOCKED and then LEVEL3_UNLOCKED to an unbanned
account holding neither: both codes are appended, 50 + 75 coins are
credited, and the two achievement_reward entries are logged. -/
theorem award_levels_2_3 (id : Nat) (now : Int) (s : St) (v : Account)
    (hv : findById s id = some v)
    (hb : v.isBannedFromCoins = false)
    (hn2 : "LEVEL2_UNLOCKED" ∉ v.achievements)
    (hn3 : "LEVEL3_UNLOCKED" ∉ v.achievements) :
    ∃ b, findById (awardAchievement id "LEVEL3_UNLOCKED" now
        (awardAchievement id "LEVEL2_UNLOCKED" now s).2).2 id = some b ∧
      b.level = v.level ∧
      b.coins = v.coins + 50 + 75 ∧
      b.achievements = v.achievements ++ ["LEVEL2_UNLOCKED", "LEVEL3_UNLOCKED"] ∧
      (awardAchievement id "LEVEL3_UNLOCKED" now
        (awardAchievement id "LEVEL2_UNLOCKED" now s).2).2.ledger = s.ledger ++
        [⟨"achievement_reward", none, some id, none, some v.username, 50,
           "Achievement: Unlocked Level 2", now⟩,
         ⟨"achievement_reward", none, some id, none, some v.username, 75,
           "Achievement: Unlocked Level 3", now⟩] := by
  have hd2 : achievementDef "LEVEL2_UNLOCKED" =
      some ⟨"LEVEL2_UNLOCKED", "Unlocked Level 2", 50⟩ := by decide
  have hd3 : achievementDef "LEVEL3_UNLOCKED" =
      some ⟨"LEVEL3_UNLOCKED", "Unlocked Level 3", 75⟩ := by decide
  have haw2 := award_fresh_unbanned id now s hd2 hv hn2 hb (by decide)
  simp only [haw2]
  have hv2 : findById (appendLedger (saveAccount s id
      { v with achievements := v.achievements ++ ["LEVEL2_UNLOCKED"], coins := v.coins + 50 })
      ⟨"achievement_reward", none, some id, none, some v.username, 50,
        "Achievement: " ++ "Unlocked Level 2", now⟩) id =
      some { v with achievements := v.achievements ++ ["LEVEL2_UNLOCKED"], coins := v.coins + 50 } := by
    rw [findById_appendLedger]
    exact findById_saveAccount_self s id v _ hv
  have hn3b : ("LEVEL3_UNLOCKED" : String) ∉ v.achievements ++ ["LEVEL2_UNLOCKED"] := by
    intro hmem
    rcases List.mem_append.mp hmem with h | h
    · exact hn3 h
    · rw [List.mem_singleton] at h
      exact absurd h (by decide)
  have haw3 := award_fresh_unbanned id now _ hd3 hv2 hn3b hb (by decide)
  simp only [haw3]
  refine ⟨{ v with achievements := (v.achievements ++ ["LEVEL2_UNLOCKED"]) ++ ["LEVEL3_UNLOCKED"], coins := v.coins + 50 + 75 }, ?_, rfl, rfl, by simp, by simp [List.append_assoc]⟩
  rw [findById_appendLedger]
  exact findById_saveAccount_self _ id _ _ hv2

/-- C7: levelUp accepts only a target level strictly above the current
one and at most 10, rejecting anything else with no mutation; a
non-admin is charged (target − current) × 100 coins and rejected when
the balance is short, while an admin pays nothing even with a balance
far below the cost; after setting the level and logging a level_up
entry it grants LEVEL2_UNLOCKED when the new level reaches 2 and
additionally LEVEL3_UNLOCKED when it reaches 3, via awardAchievement;
in particular balance 500 at level 1 levelling to 3 ends at level 3
with balance 425 and two new achievement entries (see the witness). -/
theorem c7_level_up (st : St) (id : Nat) (u : Account) (lvl now : Int)
    (hfind : findById st id = some u) :
    (¬ (u.level < lvl ∧ lvl ≤ 10) →
       levelUp id lvl now st = (Resp.err 400 "Invalid target level", st)) ∧
    (u.isBannedFromCoins = false → u.role ≠ "admin" → u.level < lvl → lvl ≤ 10 →
     u.coins < (lvl - u.level) * 100 →
       levelUp id lvl now st = (Resp.err 400 "Not enough coins", st)) ∧
    (u.isBannedFromCoins = false → u.role ≠ "admin" → u.level < lvl → lvl < 2 →
     (lvl - u.level) * 100 ≤ u.coins →
       levelUp id lvl now st =
         (Resp.ok, appendLedger (saveAccount st id
            { u with coins := u.coins - (lvl - u.level) * 100, level := lvl })
            ⟨"level_up", some id, none, some u.username, none, (lvl - u.level) * 100,
              "Level up " ++ toString u.level ++ " -> " ++ toString lvl, now⟩)) ∧
    (u.isBannedFromCoins = false → u.role ≠ "admin" → "LEVEL2_UNLOCKED" ∉ u.achievements →
     u.level < lvl → lvl = 2 → (lvl - u.level) * 100 ≤ u.coins →
       (levelUp id lvl now st).1 = Resp.ok ∧
       (∀ b, findById (levelUp id lvl now st).2 id = some b →
          b.level = lvl ∧
          b.coins = u.coins - (lvl - u.level) * 100 + 50 ∧
          b.achievements = u.achievements ++ ["LEVEL2_UNLOCKED"]) ∧
       (levelUp id lvl now st).2.ledger = st.ledger ++
         [⟨"level_up", some id, none, some u.username, none, (lvl - u.level) * 100,
            "Level up " ++ toString u.level ++ " -> " ++ toString lvl, now⟩,
          ⟨"achievement_reward", none, some id, none, some u.username, 50,
            "Achievement: Unlocked Level 2", now⟩]) ∧
    (u.isBannedFromCoins = false → u.role ≠ "admin" → "LEVEL2_UNLOCKED" ∉ u.achievements →
     "LEVEL3_UNLOCKED" ∉ u.achievements →
     u.level < lvl → lvl ≤ 10 → 3 ≤ lvl → (lvl - u.level) * 100 ≤ u.coins →
       (levelUp id lvl now st).1 = Resp.ok ∧
       (∀ b, findById (levelUp id lvl now st).2 id = some b →
          b.level = lvl ∧
          b.coins = u.coins - (lvl - u.level) * 100 + 50 + 75 ∧
          b.achievements = u.achievements ++ ["LEVEL2_UNLOCKED", "LEVEL3_UNLOCKED"]) ∧
       (levelUp id lvl now st).2.ledger = st.ledger ++
         [⟨"level_up", some id, none, some u.username, none, (lvl - u.level) * 100,
            "Level up " ++ toString u.level ++ " -> " ++ toString lvl, now⟩,
          ⟨"achievement_reward", none, some id, none, some u.username, 50,
            "Achievement: Unlocked Level 2", now⟩,
          ⟨"achievement_reward", none, some id, none, some u.username, 75,
            "Achievement: Unlocked Level 3", now⟩]) ∧
    (u.isBannedFromCoins = false → u.role = "admin" → u.level < lvl → lvl < 2 →
       levelUp id lvl now st =
         (Resp.ok, appendLedger (saveAccount st id { u with level := lvl })
            ⟨"level_up", some id, none, some u.username, none, (lvl - u.level) * 100,
              "Level up " ++ toString u.level ++ " -> " ++ toString lvl, now⟩)) ∧
    (u.isBannedFromCoins = false → u.role = "admin" → "LEVEL2_UNLOCKED" ∉ u.achievements →
     "LEVEL3_UNLOCKED" ∉ u.achievements → u.level < lvl → lvl ≤ 10 → 3 ≤ lvl →
       (levelUp id lvl now st).1 = Resp.ok ∧
       (∀ b, findById (levelUp id lvl now st).2 id = some b →
          b.level = lvl ∧
          b.coins = u.coins + 50 + 75 ∧
          b.achievements = u.achievements ++ ["LEVEL2_UNLOCKED", "LEVEL3_UNLOCKED"]) ∧
       (levelUp id lvl now st).2.ledger = st.ledger ++
         [⟨"level_up", some id, none, some u.username, none, (lvl - u.level) * 100,
            "Level up " ++ toString u.level ++ " -> " ++ toString lvl, now⟩,
          ⟨"achievement_reward", none, some id, none, some u.username, 50,
            "Achievement: Unlocked Level 2", now⟩,
          ⟨"achievement_reward", none, some id, none, some u.username, 75,
            "Achievement: Unlocked Level 3", now⟩]) := by
  refine ⟨?_, ?_, ?_, ?_, ?_, ?_, ?_⟩
  · intro h
    have hnr : lvl ≤ u.level ∨ 10 < lvl := by omega
    simp [levelUp, hfind, hnr]
  · intro hban hrole hlt hle hshort
    have hnr : ¬ (lvl ≤ u.level ∨ 10 < lvl) := by omega
    simp [levelUp, hfind, hnr, hban, hrole, hshort]
  · intro hban hrole hlt hlow hbal
    have hnr : ¬ (lvl ≤ u.level ∨ 10 < lvl) := by omega
    have hnlt : ¬ u.coins < (lvl - u.level) * 100 := by omega
    have h2 : ¬ (2 : Int) ≤ lvl := by omega
    have h3 : ¬ (3 : Int) ≤ lvl := by omega
    simp [levelUp, hfind, hnr, hban, hrole, hnlt, h2, h3]
  · intro hban hrole hn2 hlt hlvl2 hbal
    subst hlvl2
    have hnr : ¬ ((2 : Int) ≤ u.level ∨ (10 : Int) < 2) := by omega
    have hnlt : ¬ u.coins < ((2 : Int) - u.level) * 100 := by omega
    have hred : levelUp id 2 now st =
        (Resp.ok, (awardAchievement id "LEVEL2_UNLOCKED" now
          (appendLedger (saveAccount st id
             { u with coins := u.coins - (2 - u.level) * 100, level := (2 : Int) })
             ⟨"level_up", some id, none, some u.username, none, (2 - u.level) * 100,
               "Level up " ++ toString u.level ++ " -> " ++ toString (2 : Int), now⟩)).2) := by
      simp [levelUp, hfind, hnr, hban, hrole, hnlt, hlt]
    have ha1 : findById (appendLedger (saveAccount st id
        { u with coins := u.coins - (2 - u.level) * 100, level := (2 : Int) })
        ⟨"level_up", some id, none, some u.username, none, (2 - u.level) * 100,
          "Level up " ++ toString u.level ++ " -> " ++ toString (2 : Int), now⟩) id =
        some { u with coins := u.coins - (2 - u.level) * 100, level := (2 : Int) } := by
      rw [findById_appendLedger]
      exact findById_saveAccount_self st id u _ hfind
    have hd2 : achievementDef "LEVEL2_UNLOCKED" =
        some ⟨"LEVEL2_UNLOCKED", "Unlocked Level 2", 50⟩ := by decide
    have haw2 := award_fresh_unbanned id now _ hd2 ha1 hn2 hban (by decide)
    simp only [haw2] at hred
    refine ⟨by rw [hred], ?_, ?_⟩
    · intro b hb
      rw [hred] at hb
      simp only [findById_appendLedger] at hb
      rw [findById_saveAccount_self _ id _ _ ha1] at hb
      cases hb
      exact ⟨rfl, rfl, rfl⟩
    · rw [hred]
      simp [List.append_assoc]
  · intro hban hrole hn2 hn3 hlt hle h3 hbal
    have hnr : ¬ (lvl ≤ u.level ∨ 10 < lvl) := by omega
    have hnlt : ¬ u.coins < (lvl - u.level) * 100 := by omega
    have h2le : (2 : Int) ≤ lvl := by omega
    have hred : levelUp id lvl now st =
        (Resp.ok, (awardAchievement id "LEVEL3_UNLOCKED" now
          (awardAchievement id "LEVEL2_UNLOCKED" now
            (appendLedger (saveAccount st id
               { u with coins := u.coins - (lvl - u.level) * 100, level := lvl })
               ⟨"level_up", some id, none, some u.username, none, (lvl - u.level) * 100,
                 "Level up " ++ toString u.level ++ " -> " ++ toString lvl, now⟩)).2).2) := by
      simp [levelUp, hfind, hnr, hban, hrole, hnlt, h2le, h3]
    have ha1 : findById (appendLedger (saveAccount st id
        { u with coins := u.coins - (lvl - u.level) * 100, level := lvl })
        ⟨"level_up", some id, none, some u.username, none, (lvl - u.level) * 100,
          "Level up " ++ toString u.level ++ " -> " ++ toString lvl, now⟩) id =
        some { u with coins := u.coins - (lvl - u.level) * 100, level := lvl } := by
      rw [findById_appendLedger]
      exact findById_saveAccount_self st id u _ hfind
    obtain ⟨b0, hb0, hl0, hc0, hac0, hled0⟩ :=
      award_levels_2_3 id now _ _ ha1 hban hn2 hn3
    refine ⟨by rw [hred], ?_, ?_⟩
    · intro b hb
      rw [hred] at hb
      simp only at hb
      rw [hb0] at hb
      cases hb
      exact ⟨hl0, hc0, hac0⟩
    · rw [hred]
      simp only
      rw [hled0]
      simp [List.append_assoc]
  · intro hban hrole hlt hlow
    have hnr : ¬ (lvl ≤ u.level ∨ 10 < lvl) := by omega
    have h2 : ¬ (2 : Int) ≤ lvl := by omega
    have h3 : ¬ (3 : Int) ≤ lvl := by omega
    simp [levelUp, hfind, hnr, hban, hrole, h2, h3]
  · intro hban hrole hn2 hn3 hlt hle h3
    have hnr : ¬ (lvl ≤ u.level ∨ 10 < lvl) := by omega
    have h2le : (2 : Int) ≤ lvl := by omega
    have hred : levelUp id lvl now st =
        (Resp.ok, (awardAchievement id "LEVEL3_UNLOCKED" now
          (awardAchievement id "LEVEL2_UNLOCKED" now
            (appendLedger (saveAccount st id { u with level := lvl })
               ⟨"level_up", some id, none, some u.username, none, (lvl - u.level) * 100,
                 "Level up " ++ toString u.level ++ " -> " ++ toString lvl, now⟩)).2).2) := by
      simp [levelUp, hfind, hnr, hban, hrole, h2le, h3]
    have ha1 : findById (appendLedger (saveAccount st id { u with level := lvl })
        ⟨"level_up", some id, none, some u.username, none, (lvl - u.level) * 100,
          "Level up " ++ toString u.level ++ " -> " ++ toString lvl, now⟩) id =
        some { u with level := lvl } := by
      rw [findById_appendLedger]
      exact findById_saveAccount_self st id u _ hfind
    obtain ⟨b0, hb0, hl0, hc0, hac0, hled0⟩ :=
      award_levels_2_3 id now _ _ ha1 hban hn2 hn3
    refine ⟨by rw [hred], ?_, ?_⟩
    · intro b hb
      rw [hred] at hb
      simp only at hb
      rw [hb0] at hb
      cases hb
      exact ⟨hl0, hc0, hac0⟩
    · rw [hred]
      simp only
      rw [hled0]
      simp [List.append_assoc]

/-- Witness for C7: the spec scenario (balance 500, level 1, levelUp to
3 ends at level 3 with balance 425 and both achievements), a level-up to
exactly 2 granting only LEVEL2_UNLOCKED, and an admin with balance 10
levelling to 3 free of charge, ending at 10 + 50 + 75. -/
theorem c7_level_up_witness :
    ((levelUp 0 3 0 stW7).1 = Resp.ok ∧
     (∀ b, findById (levelUp 0 3 0 stW7).2 0 = some b →
        b.level = 3 ∧ b.coins = 500 - (3 - 1) * 100 + 50 + 75 ∧
        b.achievements = [] ++ ["LEVEL2_UNLOCKED", "LEVEL3_UNLOCKED"]) ∧
     (levelUp 0 3 0 stW7).2.ledger = stW7.ledger ++
       [⟨"level_up", some 0, none, some "gina", none, (3 - 1) * 100,
          "Level up " ++ toString (1 : Int) ++ " -> " ++ toString (3 : Int), 0⟩,
        ⟨"achievement_reward", none, some 0, none, some "gina", 50,
          "Achievement: Unlocked Level 2", 0⟩,
        ⟨"achievement_reward", none, some 0, none, some "gina", 75,
          "Achievement: Unlocked Level 3", 0⟩]) ∧
    ((levelUp 0 2 0 stW7).1 = Resp.ok ∧
     (∀ b, findById (levelUp 0 2 0 stW7).2 0 = some b →
        b.level = 2 ∧ b.coins = 500 - (2 - 1) * 100 + 50 ∧
        b.achievements = [] ++ ["LEVEL2_UNLOCKED"])) ∧
    ((levelUp 1 3 0 stW7).1 = Resp.ok ∧
     (∀ b, findById (levelUp 1 3 0 stW7).2 1 = some b →
        b.level = 3 ∧ b.coins = 10 + 50 + 75 ∧
        b.achievements = [] ++ ["LEVEL2_UNLOCKED", "LEVEL3_UNLOCKED"])) := by
  have hg := c7_level_up stW7 0 ⟨"gina", 500, 1, "user", false, false, [], [], 0, [], []⟩
    3 0 (by decide)
  have hg2 := c7_level_up stW7 0 ⟨"gina", 500, 1, "user", false, false, [], [], 0, [], []⟩
    2 0 (by decide)
  have hh := c7_level_up stW7 1 ⟨"hera", 10, 1, "admin", false, false, [], [], 0, [], []⟩
    3 0 (by decide)
  refine ⟨?_, ?_, ?_⟩
  · exact hg.2.2.2.2.1 (by decide) (by decide) (by decide) (by decide) (by decide)
      (by decide) (by decide) (by decide)
  · have h := hg2.2.2.2.1 (by decide) (by decide) (by decide) (by decide) (by decide)
      (by decide)
    exact ⟨h.1, h.2.1⟩
  · have h := hh.2.2.2.2.2.2 (by decide) (by decide) (by decide) (by decide) (by decide)
      (by decide) (by decide)
    exact ⟨h.1, h.2.1⟩

/-- Reduction of the adminAdjust route on its accepting path. -/
theorem adminAdjust_reduces {st : St} {adminId : Nat} {admin : Account} {uname : String}
    {tid : Nat} {target : Account} (delta : Int) (reason : String) (now : Int)
    (hadm : findById st adminId = some admin) (hrole : admin.role = "admin")
    (hun : uname ≠ "") (htgt : findByUsername st (jsTrim uname) = some (tid, target)) :
    adminAdjust adminId uname delta reason now st =
      (Resp.ok, appendLedger
        (saveAccount st tid { target with coins := max 0 (target.coins + delta) })
        ⟨"admin_adjust", some adminId, some tid, some admin.username,
          some target.username, |delta|,
          "Admin adjust (" ++ (if 0 ≤ delta then "+" else "") ++ toString delta ++ ")"
            ++ (if reason = "" then "" else " — " ++ reason.take 200), now⟩) := by
  simp [adminAdjust, hadm, hrole, hun, htgt]

/-- C8: adminAdjust sets the target balance to max(0, old + delta) and
always appends an admin_adjust ledger entry whose amount is the unsigned
magnitude of delta and whose description carries the signed delta. -/
theorem c8_admin_adjust (st : St) (adminId : Nat) (admin : Account) (uname : String)
    (delta : Int) (reason : String) (now : Int) (tid : Nat) (target : Account)
    (hadm : findById st adminId = some admin)
    (hrole : admin.role = "admin")
    (hun : uname ≠ "")
    (htgt : findByUsername st (jsTrim uname) = some (tid, target))
    (hid : findById st tid = some target) :
    (adminAdjust adminId uname delta reason now st).1 = Resp.ok ∧
    findById (adminAdjust adminId uname delta reason now st).2 tid =
      some { target with coins := max 0 (target.coins + delta) } ∧
    (adminAdjust adminId uname delta reason now st).2.ledger =
      st.ledger ++ [⟨"admin_adjust", some adminId, some tid, some admin.username,
        some target.username, |delta|,
        "Admin adjust (" ++ (if 0 ≤ delta then "+" else "") ++ toString delta ++ ")"
          ++ (if reason = "" then "" else " — " ++ reason.take 200), now⟩] := by
  have hred : adminAdjust adminId uname delta reason now st =
      (Resp.ok, appendLedger
        (saveAccount st tid { target with coins := max 0 (target.coins + delta) })
        ⟨"admin_adjust", some adminId, some tid, some admin.username,
          some target.username, |delta|,
          "Admin adjust (" ++ (if 0 ≤ delta then "+" else "") ++ toString delta ++ ")"
            ++ (if reason = "" then "" else " — " ++ reason.take 200), now⟩) :=
    adminAdjust_reduces delta reason now hadm hrole hun htgt
  rw [hred]
  refine ⟨rfl, ?_, by simp⟩
  rw [findById_appendLedger]
  exact findById_saveAccount_self st tid target _ hid

/-- Witness for C8: an adjustment of −9 against a balance of 5 clamps the
stored balance to exactly 0. -/
theorem c8_admin_adjust_witness :
    findById (adminAdjust 1 "alice" (-9) "oops" 0 stW8).2 0 =
      some { aliceW8 with coins := max 0 (aliceW8.coins + (-9)) } ∧
    max 0 (aliceW8.coins + (-9 : Int)) = 0 :=
  ⟨(c8_admin_adjust stW8 1 rootW8 "alice" (-9) "oops" 0 0 aliceW8 (by decide) (by decide)
      (by decide) (by decide) (by decide)).2.1,
   by decide⟩

/-- C9: buyFeature rejects an unknown feature key, an already set unlock
flag, and an insufficient balance, each with no account mutation and no
ledger entry; on the accepting path it deducts exactly the price and sets
the unlock flag in one account save followed by one feature_purchase
ledger entry. -/
theorem c9_buy_feature_atomic (st : St) (id : Nat) (u : Account) (key : String) (now : Int)
    (hfind : findById st id = some u) :
    (featurePrice key = none → buyFeature id key now st = (Resp.err 400 "Invalid feature", st)) ∧
    (∀ cost, featurePrice key = some cost → u.isBannedFromCoins = false → key ∈ u.unlocks →
       buyFeature id key now st = (Resp.err 400 "Feature already unlocked", st)) ∧
    (∀ cost, featurePrice key = some cost → u.isBannedFromCoins = false → key ∉ u.unlocks →
       u.coins < cost → buyFeature id key now st = (Resp.err 400 "Not enough coins", st)) ∧
    (∀ cost, featurePrice key = some cost → u.isBannedFromCoins = false → key ∉ u.unlocks →
       cost ≤ u.coins →
       (buyFeature id key now st).1 = Resp.ok ∧
       findById (buyFeature id key now st).2 id =
         some { u with coins := u.coins - cost, unlocks := u.unlocks ++ [key] } ∧
       (buyFeature id key now st).2.ledger = st.ledger ++
         [⟨"feature_purchase", some id, none, some u.username, none, cost,
           "Feature purchase: " ++ key, now⟩]) := by
  refine ⟨?_, ?_, ?_, ?_⟩
  · intro h
    simp [buyFeature, hfind, h]
  · intro cost hc hb hu
    simp [buyFeature, hfind, hc, hb, hu]
  · intro cost hc hb hu hlt
    simp [buyFeature, hfind, hc, hb, hu, hlt]
  · intro cost hc hb hu hge
    have hnlt : ¬ u.coins < cost := not_lt.mpr hge
    have hred : buyFeature id key now st =
        (Resp.ok, appendLedger
          (saveAccount st id { u with coins := u.coins - cost, unlocks := u.unlocks ++ [key] })
          ⟨"feature_purchase", some id, none, some u.username, none, cost,
            "Feature purchase: " ++ key, now⟩) := by
      simp [buyFeature, hfind, hc, hb, hu, hnlt]
    rw [hred]
    refine ⟨rfl, ?_, by simp⟩
    rw [findById_appendLedger]
    exact findById_saveAccount_self st id u _ hfind

/-- Witness for C9: buying chat at price 100 with balance 50 is rejected
with no mutation, while a 500-coin account buys it and is charged 100. -/
theorem c9_buy_feature_atomic_witness :
    buyFeature 0 "chat" 0 stW9 = (Resp.err 400 "Not enough coins", stW9) ∧
    (buyFeature 1 "chat" 0 stW9).1 = Resp.ok ∧
    findById (buyFeature 1 "chat" 0 stW9).2 1 =
      some { daveW9 with coins := daveW9.coins - 100, unlocks := daveW9.unlocks ++ ["chat"] } :=
  ⟨(c9_buy_feature_atomic stW9 0 carolW9 "chat" 0 (by decide)).2.2.1 100
      (by decide) (by decide) (by decide) (by decide),
   ((c9_buy_feature_atomic stW9 1 daveW9 "chat" 0 (by decide)).2.2.2 100
      (by decide) (by decide) (by decide) (by decide)).1,
   ((c9_buy_feature_atomic stW9 1 daveW9 "chat" 0 (by decide)).2.2.2 100
      (by decide) (by decide) (by decide) (by decide)).2.1⟩

/-- C1: once awardAchievement has granted a catalog code to an account,
the code sits in the achievement set exactly once, the coin delta is 0 or
the catalog reward, and every later call for the same pair returns the
current account while leaving the whole store (achievements, balance,
ledger) unchanged, for any number of repetitions. -/
theorem c1_at_most_once_grant (st : St) (id : Nat) (a : Account) (code : String)
    (d : AchievementDef) (now now2 : Int) (n : Nat)
    (hd : achievementDef code = some d)
    (ha : findById st id = some a)
    (hn : d.code ∉ a.achievements) :
    ∃ b : Account,
      findById (awardAchievement id code now st).2 id = some b ∧
      b.achievements = a.achievements ++ [d.code] ∧
      b.achievements.count d.code = 1 ∧
      (b.coins = a.coins ∨ b.coins = a.coins + d.coinsReward) ∧
      awardAchievement id code now2 (awardAchievement id code now st).2 =
        (some b, (awardAchievement id code now st).2) ∧
      grantIter id code now2 n (awardAchievement id code now st).2 =
        (awardAchievement id code now st).2 := by
  have hcount : (a.achievements ++ [d.code]).count d.code = 1 := by
    rw [List.count_append, List.count_eq_zero.mpr hn]
    simp
  have main : ∃ b : Account,
      findById (awardAchievement id code now st).2 id = some b ∧
      b.achievements = a.achievements ++ [d.code] ∧
      (b.coins = a.coins ∨ b.coins = a.coins + d.coinsReward) := by
    cases hb : a.isBannedFromCoins with
    | true =>
      rw [award_fresh_banned id now st hd ha hn hb]
      exact ⟨_, findById_saveAccount_self st id a _ ha, rfl, Or.inl rfl⟩
    | false =>
      by_cases hr : 0 < d.coinsReward
      · rw [award_fresh_unbanned id now st hd ha hn hb hr]
        have hfb := findById_saveAccount_self st id a
          { a with achievements := a.achievements ++ [d.code], coins := a.coins + d.coinsReward } ha
        exact ⟨_, by rw [findById_appendLedger]; exact hfb, rfl, Or.inr rfl⟩
      · rw [award_fresh_unbanned_nocoin id now st hd ha hn hb hr]
        exact ⟨_, findById_saveAccount_self st id a _ ha, rfl, Or.inl rfl⟩
  obtain ⟨b, hb1, hb2, hb3⟩ := main
  have hmem : d.code ∈ b.achievements := by
    rw [hb2]
    simp
  refine ⟨b, hb1, hb2, hb2 ▸ hcount, hb3, ?_, ?_⟩
  · exact award_already id now2 _ hd hb1 hmem
  · exact grantIter_stable now2 hd _ hb1 hmem n

/-- Witness for C1 at a concrete store: granting FIRST_LOGIN once and
then repeating the call three times changes nothing further. -/
theorem c1_at_most_once_grant_witness :
    ∃ b : Account,
      findById (awardAchievement 0 "FIRST_LOGIN" 11 stW).2 0 = some b ∧
      b.achievements = [] ++ ["FIRST_LOGIN"] ∧
      b.achievements.count "FIRST_LOGIN" = 1 ∧
      (b.coins = 5 ∨ b.coins = 5 + 10) ∧
      awardAchievement 0 "FIRST_LOGIN" 22 (awardAchievement 0 "FIRST_LOGIN" 11 stW).2 =
        (some b, (awardAchievement 0 "FIRST_LOGIN" 11 stW).2) ∧
      grantIter 0 "FIRST_LOGIN" 22 3 (awardAchievement 0 "FIRST_LOGIN" 11 stW).2 =
        (awardAchievement 0 "FIRST_LOGIN" 11 stW).2 :=
  c1_at_most_once_grant stW 0 ⟨"alice", 5, 1, "user", false, false, [], [], 0, [], []⟩
    "FIRST_LOGIN" ⟨"FIRST_LOGIN", "First Login", 10⟩ 11 22 3
    (by decide) (by decide) (by decide)

/-- C6: a coin-banned account that does not yet hold a catalog code gains
the achievement with balance untouched and no ledger entry; in general a
ledger entry is appended exactly when the coin-granting first branch
succeeded with a positive catalog reward. -/
theorem c6_ban_suppression (st : St) (id : Nat) (code : String) (now : Int) :
    (∀ a d, findById st id = some a → achievementDef code = some d →
       d.code ∉ a.achievements → a.isBannedFromCoins = true →
       (awardAchievement id code now st).2.ledger = st.ledger ∧
       findById (awardAchievement id code now st).2 id =
         some { a with achievements := a.achievements ++ [d.code] }) ∧
    ((awardAchievement id code now st).2.ledger ≠ st.ledger ↔
       ∃ a d, findById st id = some a ∧ achievementDef code = some d ∧
         d.code ∉ a.achievements ∧ a.isBannedFromCoins = false ∧ 0 < d.coinsReward) := by
  constructor
  · intro a d ha hd hn hb
    rw [award_fresh_banned id now st hd ha hn hb]
    constructor
    · exact ledger_saveAccount st id _
    · exact findById_saveAccount_self st id a _ ha
  · cases hd : achievementDef code with
    | none =>
      rw [award_unknown id now st hd]
      simp only [ne_eq, not_true_eq_false, false_iff, not_exists]
      intro a d ⟨_, h2, _⟩
      exact Option.noConfusion h2
    | some d =>
      cases ha : findById st id with
      | none =>
        rw [award_noAccount id now st hd ha]
        simp only [ne_eq, not_true_eq_false, false_iff, not_exists]
        intro a d2 ⟨h1, _⟩
        exact Option.noConfusion h1
      | some a =>
        by_cases hmem : d.code ∈ a.achievements
        · rw [award_already id now st hd ha hmem]
          simp only [ne_eq, not_true_eq_false, false_iff, not_exists]
          intro a2 d2 ⟨h1, h2, h3, _⟩
          cases h1; cases h2
          exact h3 hmem
        · cases hb : a.isBannedFromCoins with
          | true =>
            rw [award_fresh_banned id now st hd ha hmem hb]
            simp only [ledger_saveAccount, ne_eq, not_true_eq_false, false_iff, not_exists]
            intro a2 d2 ⟨h1, h2, _, h4, _⟩
            cases h1
            rw [hb] at h4
            exact Bool.noConfusion h4
          | false =>
            by_cases hr : 0 < d.coinsReward
            · rw [award_fresh_unbanned id now st hd ha hmem hb hr]
              constructor
              · intro _
                exact ⟨a, d, rfl, rfl, hmem, hb, hr⟩
              · intro _
                simp
            · rw [award_fresh_unbanned_nocoin id now st hd ha hmem hb hr]
              simp only [ledger_saveAccount, ne_eq, not_true_eq_false, false_iff, not_exists]
              intro a2 d2 ⟨h1, h2, _, _, h5⟩
              cases h1; cases h2
              exact hr h5

/-- Witness for C6 at a concrete store: a coin-banned account earns
FIRST_LOGIN with no coins and no ledger entry. -/
theorem c6_ban_suppression_witness :
    (awardAchievement 0 "FIRST_LOGIN" 0 stW6).2.ledger = stW6.ledger ∧
    findById (awardAchievement 0 "FIRST_LOGIN" 0 stW6).2 0 =
      some ⟨"bella", 9, 1, "user", true, false, ["FIRST_LOGIN"], [], 0, [], []⟩ :=
  (c6_ban_suppression stW6 0 "FIRST_LOGIN" 0).1
    ⟨"bella", 9, 1, "user", true, false, [], [], 0, [], []⟩
    ⟨"FIRST_LOGIN", "First Login", 10⟩ (by decide) (by decide) (by decide) (by decide)

section NonNegLemmas

theorem nonNeg_award {st : St} (id : Nat) (code : String) (now : Int) (h : NonNeg st) :
    NonNeg (awardAchievement id code now st).2 := by
  cases hd : achievementDef code with
  | none =>
    rw [award_unknown id now st hd]
    exact h
  | some d =>
    cases ha : findById st id with
    | none =>
      rw [award_noAccount id now st hd ha]
      exact h
    | some a =>
      have hac : 0 ≤ a.coins := nonNeg_findById h ha
      by_cases hmem : d.code ∈ a.achievements
      · rw [award_already id now st hd ha hmem]
        exact h
      · cases hb : a.isBannedFromCoins with
        | true =>
          rw [award_fresh_banned id now st hd ha hmem hb]
          exact nonNeg_saveAccount id h hac
        | false =>
          by_cases hr : 0 < d.coinsReward
          · rw [award_fresh_unbanned id now st hd ha hmem hb hr]
            apply nonNeg_appendLedger
            apply nonNeg_saveAccount id h
            show 0 ≤ a.coins + d.coinsReward
            omega
          · rw [award_fresh_unbanned_nocoin id now st hd ha hmem hb hr]
            exact nonNeg_saveAccount id h hac

theorem nonNeg_buyFeature {st : St} (id : Nat) (key : String) (now : Int) (h : NonNeg st) :
    NonNeg (buyFeature id key now st).2 := by
  unfold buyFeature
  cases hu : findById st id with
  | none => exact h
  | some u =>
    cases hp : featurePrice key with
    | none => exact h
    | some cost =>
      by_cases hb : u.isBannedFromCoins
      · simp only [if_pos hb]
        exact h
      · simp only [if_neg hb]
        by_cases hk : key ∈ u.unlocks
        · simp only [if_pos hk]
          exact h
        · simp only [if_neg hk]
          by_cases hlt : u.coins < cost
          · simp only [if_pos hlt]
            exact h
          · simp only [if_neg hlt]
            apply nonNeg_appendLedger
            apply nonNeg_saveAccount id h
            show 0 ≤ u.coins - cost
            have := nonNeg_findById h hu
            omega

theorem nonNeg_adminAdjust {st : St} (adminId : Nat) (uname : String) (delta : Int)
    (reason : String) (now : Int) (h : NonNeg st) :
    NonNeg (adminAdjust adminId uname delta reason now st).2 := by
  unfold adminAdjust
  cases ha : findById st adminId with
  | none => exact h
  | some admin =>
    by_cases hr : admin.role ≠ "admin"
    · simp only [if_pos hr]
      exact h
    · simp only [if_neg hr]
      by_cases hn : uname = ""
      · simp only [if_pos hn]
        exact h
      · simp only [if_neg hn]
        cases ht : findByUsername st (jsTrim uname) with
        | none => exact h
        | some p =>
          obtain ⟨tid, target⟩ := p
          apply nonNeg_appendLedger
          apply nonNeg_saveAccount tid h
          exact le_max_left 0 _

theorem nonNeg_transfer {st : St} (fromId : Nat) (toUsername : String) (amount now : Int)
    (h : NonNeg st) : NonNeg (transfer fromId toUsername amount now st).2 := by
  unfold transfer
  cases hu : findById st fromId with
  | none => exact h
  | some u =>
    by_cases hb : u.isBannedFromCoins
    · simp only [if_pos hb]
      exact h
    · simp only [if_neg hb]
      by_cases hval : toUsername = "" ∨ amount ≤ 0
      · simp only [if_pos hval]
        exact h
      · simp only [if_neg hval]
        cases ht : findByUsername st (jsTrim toUsername) with
        | none => exact h
        | some p =>
          obtain ⟨tid, target⟩ := p
          by_cases hself : target.username = u.username
          · simp only [if_pos hself]
            exact h
          · simp only [if_neg hself]
            cases hlim : (if u.role = "admin" then none
                else dailyLimitsOK fromId 20 2000 now st) with
            | some r => exact h
            | none =>
              by_cases hlt : u.coins < amount
              · simp only [if_pos hlt]
                exact h
              · simp only [if_neg hlt]
                apply nonNeg_appendLedger
                apply nonNeg_saveAccount tid
                · apply nonNeg_saveAccount fromId h
                  show 0 ≤ u.coins - amount
                  have := nonNeg_findById h hu
                  omega
                · have htc := nonNeg_findByUsername h ht
                  have hamt : 0 < amount := by omega
                  by_cases hbt : target.isBannedFromCoins
                  · simp only [if_pos hbt]
                    exact htc
                  · simp only [if_neg hbt]
                    show 0 ≤ target.coins + amount
                    omega

theorem nonNeg_levelUp {st : St} (id : Nat) (lvl now : Int) (h : NonNeg st) :
    NonNeg (levelUp id lvl now st).2 := by
  unfold levelUp
  cases hu : findById st id with
  | none => exact h
  | some u =>
    by_cases hl : lvl ≤ u.level ∨ 10 < lvl
    · simp only [if_pos hl]
      exact h
    · simp only [if_neg hl]
      by_cases hb : u.isBannedFromCoins
      · simp only [if_pos hb]
        exact h
      · simp only [if_neg hb]
        by_cases hc : u.role ≠ "admin" ∧ u.coins < (lvl - u.level) * 100
        · simp only [if_pos hc]
          exact h
        · simp only [if_neg hc]
          have hu0 : 0 ≤ u.coins := nonNeg_findById h hu
          have h1 : NonNeg (appendLedger (saveAccount st id
              { u with coins := if u.role = "admin" then u.coins
                  else u.coins - (lvl - u.level) * 100, level := lvl })
              ⟨"level_up", some id, none, some u.username, none, (lvl - u.level) * 100,
                "Level up " ++ toString u.level ++ " -> " ++ toString lvl, now⟩) := by
            apply nonNeg_appendLedger
            apply nonNeg_saveAccount id h
            by_cases hr : u.role = "admin"
            · simp only [if_pos hr]
              exact hu0
            · simp only [if_neg hr]
              show 0 ≤ u.coins - (lvl - u.level) * 100
              rw [not_and_or] at hc
              rcases hc with hc | hc
              · exact absurd hr (by tauto)
              · omega
          by_cases h2 : 2 ≤ lvl
          · simp only [if_pos h2]
            by_cases h3 : 3 ≤ lvl
            · simp only [if_pos h3]
              exact nonNeg_award id _ now (nonNeg_award id _ now h1)
            · simp only [if_neg h3]
              exact nonNeg_award id _ now h1
          · simp only [if_neg h2]
            by_cases h3 : 3 ≤ lvl
            · simp only [if_pos h3]
              exact nonNeg_award id _ now h1
            · simp only [if_neg h3]
              exact h1

theorem nonNeg_stepOp (op : Op) {st : St} (h : NonNeg st) : NonNeg (stepOp op st) := by
  cases op with
  | transferOp f t a n => exact nonNeg_transfer f t a n h
  | buyFeatureOp u k n => exact nonNeg_buyFeature u k n h
  | levelUpOp u l n => exact nonNeg_levelUp u l n h
  | adminAdjustOp a u d r n => exact nonNeg_adminAdjust a u d r n h
  | grantOp u c n => exact nonNeg_award u c n h

theorem nonNeg_runOps (ops : List Op) : ∀ st : St, NonNeg st → NonNeg (runOps ops st) := by
  induction ops with
  | nil => exact fun _ h => h
  | cons op rest ih => exact fun st h => ih _ (nonNeg_stepOp op h)

end NonNegLemmas

/-- C2: starting from any store whose balances are all non-negative, any
sequential run of transfer, buyFeature, levelUp, adminAdjust and
awardAchievement operations keeps every stored balance non-negative at
every step, and an adminAdjust whose delta is more negative than the
target balance stores exactly 0. -/
theorem c2_nonneg_invariant (ops : List Op) (st : St) (h : NonNeg st) :
    NonNeg (runOps ops st) ∧
    (∀ pre : List Op, pre <+: ops → NonNeg (runOps pre st)) ∧
    (∀ adminId uname delta reason now admin tid target,
       findById st adminId = some admin → admin.role = "admin" → uname ≠ "" →
       findByUsername st (jsTrim uname) = some (tid, target) →
       findById st tid = some target → target.coins + delta < 0 →
       findById (adminAdjust adminId uname delta reason now st).2 tid =
         some { target with coins := 0 }) := by
  refine ⟨nonNeg_runOps ops st h, ?_, ?_⟩
  · intro pre _
    exact nonNeg_runOps pre st h
  · intro adminId uname delta reason now admin tid target hadm hrole hun htgt hid hneg
    have hred := adminAdjust_reduces delta reason now hadm hrole hun htgt
    rw [hred]
    rw [findById_appendLedger]
    have hmax : max 0 (target.coins + delta) = 0 := max_eq_left (le_of_lt hneg)
    rw [hmax] at hred ⊢
    exact findById_saveAccount_self st tid target _ hid

/-- Witness for C2: a run doing an over-negative admin adjustment, a
transfer and a level-up keeps all balances at or above zero, and the
adjusted account is stored at exactly 0. -/
theorem c2_nonneg_invariant_witness :
    NonNeg (runOps [Op.adminAdjustOp 1 "alice" (-9) "r" 0,
                    Op.transferOp 1 "alice" 3 0,
                    Op.levelUpOp 0 2 0] stW8) ∧
    findById (adminAdjust 1 "alice" (-9) "r" 0 stW8).2 0 = some { aliceW8 with coins := 0 } :=
  ⟨(c2_nonneg_invariant [Op.adminAdjustOp 1 "alice" (-9) "r" 0,
      Op.transferOp 1 "alice" 3 0, Op.levelUpOp 0 2 0] stW8 (by decide)).1,
   (c2_nonneg_invariant [] stW8 (by decide)).2.2 1 "alice" (-9) "r" 0 rootW8 0 aliceW8
     (by decide) (by decide) (by decide) (by decide) (by decide) (by decide)⟩
